import Mathlib

set_option maxHeartbeats 1000000

/-! Shallow embedding of the two QGIS scripts of this repository:
`src/Interseccao.py` (class `Interseccao`, entry `processamento`) and
`src/unnamed/part_000` ("APP, RL E Área de supressão.py", entry `executar`).

Geometry is abstracted as a finite set of unit cells (`Finset ℕ`); the
external geometry engine's primitives (`native:fixgeometries`,
`native:reprojectlayer`, `native:intersection`, `native:difference`,
`native:mergevectorlayers`) are given their set-algebraic semantics, and an
oracle `Nat → Bool` decides which dynamic engine call raises, so every
pattern of engine failures is represented. Python `try`/`except` blocks are
translated exactly where the sources place them. -/

/-- A vector feature: an optional polygon geometry (abstract finite cell
set; `none` models a null geometry) and attribute values aligned with the
owning layer's field list. -/
structure Feat where
  geom : Option (Finset Nat)
  vals : List (Option ℚ)
deriving DecidableEq

/-- A vector layer as the scripts see it: display name, CRS authority id,
validity flag, attribute schema and feature list. -/
structure Layer where
  name : String
  crs : String
  valid : Bool
  fields : List String
  feats : List Feat
deriving DecidableEq

/-- Model of `QgsMapLayer.setName`. -/
def Layer.setName (l : Layer) (n : String) : Layer := { l with name := n }

/-- Geometry of a feature, reading a null geometry as the empty region. -/
def Feat.geomD (f : Feat) : Finset Nat := f.geom.getD ∅

/-- Union of the geometries of a feature list. -/
def unionFeats (fs : List Feat) : Finset Nat :=
  fs.foldr (fun f a => f.geomD ∪ a) ∅

/-- Total geometry covered by a layer. -/
def layerGeom (l : Layer) : Finset Nat := unionFeats l.feats

/-- Engine semantics of `native:fixgeometries`: geometry repair is the
identity on the abstract cell-set model (validity is not re-modelled). -/
def fixgeometries (l : Layer) : Layer := l

/-- Engine semantics of `native:reprojectlayer`: the CRS label changes,
the abstract geometry is coordinate-free and therefore unchanged. -/
def reprojectlayer (l : Layer) (crs : String) : Layer := { l with crs := crs }

/-- One feature of a difference output: the part of the input feature not
covered by the overlay region, dropped when empty. -/
def recortaFeat (U : Finset Nat) (f : Feat) : Option Feat :=
  if f.geomD \ U = ∅ then none
  else some { geom := some (f.geomD \ U), vals := f.vals }

/-- Engine semantics of `native:difference`: every input feature keeps the
part of its geometry not covered by the overlay layer; features left with
an empty geometry are dropped. -/
def differenceOp (a b : Layer) : Layer :=
  { name := "", crs := a.crs, valid := true, fields := a.fields,
    feats := a.feats.filterMap (recortaFeat (layerGeom b)) }

/-- One feature of an intersection output: the common region of an input
feature and an overlay feature, dropped when empty. -/
def cruzaFeat (fa fb : Feat) : Option Feat :=
  if fa.geomD ∩ fb.geomD = ∅ then none
  else some { geom := some (fa.geomD ∩ fb.geomD), vals := fa.vals ++ fb.vals }

/-- Engine semantics of `native:intersection`: one output feature per pair
of input/overlay features with a non-empty common region, carrying both
attribute records. -/
def intersectionOp (a b : Layer) : Layer :=
  { name := "", crs := a.crs, valid := true, fields := a.fields ++ b.fields,
    feats := a.feats.flatMap (fun fa => b.feats.filterMap (cruzaFeat fa)) }

/-- Engine semantics of `native:mergevectorlayers`: feature concatenation
(no geometric dissolve), output CRS taken from the `CRS` parameter. -/
def mergeOp (ls : List Layer) (crs : String) : Layer :=
  { name := "", crs := crs, valid := true,
    fields := (ls.head?.map Layer.fields).getD [],
    feats := ls.flatMap Layer.feats }

/-- Modelled collaborator (Python `unicodedata` NFD + drop of combining
marks, applied after `str.lower`): folds the accented characters occurring
in this project's layer names to their base letters. -/
def minusculaSemAcento (c : Char) : Char :=
  if c = 'á' ∨ c = 'à' ∨ c = 'â' ∨ c = 'ã' ∨ c = 'ä' ∨ c = 'Á' ∨ c = 'À' ∨ c = 'Â' ∨ c = 'Ã' then 'a'
  else if c = 'é' ∨ c = 'è' ∨ c = 'ê' ∨ c = 'É' ∨ c = 'Ê' then 'e'
  else if c = 'í' ∨ c = 'ì' ∨ c = 'î' ∨ c = 'Í' then 'i'
  else if c = 'ó' ∨ c = 'ò' ∨ c = 'ô' ∨ c = 'õ' ∨ c = 'ö' ∨ c = 'Ó' ∨ c = 'Ô' ∨ c = 'Õ' then 'o'
  else if c = 'ú' ∨ c = 'ù' ∨ c = 'û' ∨ c = 'ü' ∨ c = 'Ú' then 'u'
  else if c = 'ç' ∨ c = 'Ç' then 'c'
  else c

/-- `Interseccao.normalizar_texto`: lower-cases and strips diacritics;
empty input yields the empty string. -/
def normalizar_texto (s : String) : String :=
  String.mk (s.data.map (fun c => minusculaSemAcento c.toLower))

/-- List-of-characters prefix test (model of Python string matching). -/
def ehPrefixo : List Char → List Char → Bool
  | [], _ => true
  | _ :: _, [] => false
  | a :: as, b :: bs => a == b && ehPrefixo as bs

/-- Substring containment on character lists (model of Python `in`). -/
def contemSub : List Char → List Char → Bool
  | sub, [] => sub.isEmpty
  | sub, b :: bs => ehPrefixo sub (b :: bs) || contemSub sub bs

/-- Python `sub in s` on normalized strings. -/
def contem (sub s : String) : Bool := contemSub sub.data s.data

/-- The three fixed priority environmental names (`nomes_prioritarios` in
`Interseccao.py`, `nomes_ambientais` in the unnamed script). -/
def nomes_prioritarios : List String :=
  ["área de supressão", "Área de Preservação Permanente", "Reserva legal"]

/-- The four fixed generic positional names. -/
def nomes_genericos : List String :=
  ["Camada01", "Camada02", "Camada03", "Camada04"]

/-- The nested matching loop of both scripts: for each target name in
order, append every available layer whose normalized name contains the
normalized target as a substring. -/
def matchCamadas (nomes : List String) (layers : List Layer) : List Layer :=
  nomes.flatMap (fun nome =>
    layers.filter (fun l => contem (normalizar_texto nome) (normalizar_texto l.name)))

/-- Mode selection of `Interseccao.processamento` (lines 99-119): priority
matches are collected first; only when they number fewer than two is the
generic list scanned, and then `modo_generico` is set. Returns
`(modo_generico, camadas)`. -/
def selecionaCamadas (layers : List Layer) : Bool × List Layer :=
  let camadas := matchCamadas nomes_prioritarios layers
  if camadas.length < 2 then (true, matchCamadas nomes_genericos layers)
  else (false, camadas)

/-- Rounding to 4 decimal places (model of Python `round(x, 4)`). -/
def round4 (x : ℚ) : ℚ := ((round (x * 10000) : ℤ) : ℚ) / 10000

/-- Area of an abstract geometry in square meters: one unit cell is 1 m². -/
def areaM2 (g : Finset Nat) : ℚ := (g.card : ℚ)

/-- Default feature used for positional lookups in statements. -/
def featVazio : Feat := { geom := none, vals := [] }

/-- Default layer used for positional lookups in statements. -/
def camadaVazia : Layer :=
  { name := "", crs := "", valid := false, fields := [], feats := [] }

/-- Loop body of `adicionar_campo_area` once the field index is fixed:
a feature with a null or empty geometry is skipped, any other feature
receives `round(area / 10000, 4)` at position `idx`. -/
def marcaArea (idx : Nat) (f : Feat) : Feat :=
  match f.geom with
  | none => f
  | some g =>
    if g = ∅ then f
    else { f with vals := f.vals.set idx (some (round4 (areaM2 g / 10000))) }

/-- Effect of `layer.addAttribute` on one feature: the new trailing field
starts out unset. -/
def estendeVals (f : Feat) : Feat := { f with vals := f.vals ++ [none] }

/-- `Interseccao.adicionar_campo_area` (identical in both scripts): on a
valid layer, add an `Area_ha` double field if absent, then for every
feature whose geometry is neither null nor empty write
`round(area / 10000, 4)` at the field's first index; features with a null
or empty geometry are not touched. Invalid input is returned unchanged. -/
def adicionar_campo_area (l : Layer) : Layer :=
  if l.valid = false then l
  else
    let l1 :=
      if "Area_ha" ∈ l.fields then l
      else { l with fields := l.fields ++ ["Area_ha"],
                    feats := l.feats.map estendeVals }
    let idx := l1.fields.indexOf "Area_ha"
    { l1 with feats := l1.feats.map (marcaArea idx) }

/-- Failure oracle: `o k = true` means the `k`-th dynamic call to
`processing.run` raises an engine exception. -/
abbrev Oracle := Nat → Bool

/-- One guarded-or-not engine call on two layer arguments: passing a
Python `None` argument raises, as does a `true` oracle verdict; either
way the call counter advances. -/
def chamada2 (o : Oracle) (k : Nat) (a b : Option Layer)
    (f : Layer → Layer → Layer) : Except Unit Layer × Nat :=
  match a, b with
  | some x, some y => (if o k then Except.error () else Except.ok (f x y), k + 1)
  | _, _ => (Except.error (), k + 1)

/-- `Interseccao.reprojetar_para`: `None`/invalid input short-circuits to
`None`; an equal CRS returns the layer without an engine call; otherwise
the reprojection runs, falling back to the original layer on failure. -/
def reprojetar_para (o : Oracle) (l : Option Layer) (crs : String) (k : Nat) :
    Option Layer × Nat :=
  match l with
  | none => (none, k)
  | some x =>
    if x.valid = false then (none, k)
    else if x.crs = crs then (some x, k)
    else if o k then (some x, k + 1)
    else (some (reprojectlayer x crs), k + 1)

/-- `Interseccao.corrigir_geometria`: `None`/invalid input short-circuits
to `None`; otherwise the repair runs, falling back to the original layer
on failure. -/
def corrigir_geometria (o : Oracle) (l : Option Layer) (k : Nat) :
    Option Layer × Nat :=
  match l with
  | none => (none, k)
  | some x =>
    if x.valid = false then (none, k)
    else if o k then (some x, k + 1)
    else (some (fixgeometries x), k + 1)

/-- The conditioning idiom of both scripts:
`corrigir_geometria(reprojetar_para(layer, crs_base))`. -/
def condiciona (o : Oracle) (l : Layer) (crs : String) (k : Nat) :
    Option Layer × Nat :=
  let r := reprojetar_para o (some l) crs k
  corrigir_geometria o r.1 r.2

/-- Outcome of one run: the layers added to the project, in publication
order, and whether an uncaught exception escaped the run. -/
structure RunOut where
  published : List Layer
  crashed : Bool
deriving DecidableEq

/-- APP stage of `Interseccao.processamento` (lines 176-201): guarded
intersection naming "Área de supressão em APP", then guarded difference
of the base with the intersection result (or with the conditioned raw
overlay when the intersection failed). Returns `(layer_app, new base)`. -/
def appStep (o : Oracle) (baseCorr ovAppCorr : Option Layer) (k : Nat) :
    (Option Layer × Option Layer) × Nat :=
  let r1 := chamada2 o k baseCorr ovAppCorr intersectionOp
  let layerApp : Option Layer :=
    match r1.1 with
    | Except.ok l => some (l.setName "Área de supressão em APP")
    | Except.error _ => none
  let ov2 : Option Layer :=
    match layerApp with
    | some l => some l
    | none => ovAppCorr
  let r2 := chamada2 o r1.2 baseCorr ov2 differenceOp
  let novaBase : Option Layer :=
    match r2.1 with
    | Except.ok l => some l
    | Except.error _ => baseCorr
  ((layerApp, novaBase), r2.2)

/-- RL stage of `Interseccao.processamento` (lines 204-231): guarded
intersection of the conditioned RL overlay with the remaining base, then
guarded difference producing "Área de supressão fora"; when that
difference fails the remaining base itself (unrenamed) becomes
`layer_fora`. Returns `(layer_rl, layer_fora)`. -/
def rlStep (o : Oracle) (baseApos ovRlCorr : Option Layer) (k : Nat) :
    (Option Layer × Option Layer) × Nat :=
  let r1 := chamada2 o k ovRlCorr baseApos intersectionOp
  let layerRl : Option Layer :=
    match r1.1 with
    | Except.ok l => some (l.setName "Área de supressão em RL")
    | Except.error _ => none
  let ov2 : Option Layer :=
    match layerRl with
    | some l => some l
    | none => ovRlCorr
  let r2 := chamada2 o r1.2 baseApos ov2 differenceOp
  let layerFora : Option Layer :=
    match r2.1 with
    | Except.ok l => some (l.setName "Área de supressão fora")
    | Except.error _ => baseApos
  ((layerRl, layerFora), r2.2)

/-- Generic-mode loop of `Interseccao.processamento` (lines 141-160): for
each further matched layer, condition it and run a guarded intersection
with the (never reassigned) conditioned first layer; successful results
are named "Área Camada NN", annotated and published, failures skipped. -/
def genLoop (o : Oracle) (baseCorr : Option Layer) (crs : String) :
    List Layer → Nat → Nat → List Layer × Nat
  | [], _, k => ([], k)
  | ov :: resto, i, k =>
    let c := condiciona o ov crs k
    let r := chamada2 o c.2 baseCorr c.1 intersectionOp
    match r.1 with
    | Except.ok l =>
      let l2 := adicionar_campo_area
        (l.setName ("Área Camada " ++ (if i < 10 then "0" ++ toString i else toString i)))
      let resto2 := genLoop o baseCorr crs resto (i + 1) r.2
      (l2 :: resto2.1, resto2.2)
    | Except.error _ =>
      genLoop o baseCorr crs resto (i + 1) r.2

/-- Final publication loop of `Interseccao.processamento` (lines 237-240):
every non-`None` layer is area-annotated and added to the project. -/
def publica (ls : List (Option Layer)) : List Layer :=
  ls.filterMap (fun ol => ol.map adicionar_campo_area)

/-- `Interseccao.processamento` of `src/Interseccao.py`, whole run: layer
selection, conditioning of the base, then either the generic
intersection loop or the priority APP/RL/fora pipeline. The only
unguarded statement is `layer_fora.setName(...)` on line 234, which
raises when `camada_base_corrigida` is `None` in the two-layer priority
case; that is the only way `crashed` can be set. -/
def processamento (o : Oracle) (layers : List Layer) (k : Nat) :
    RunOut × Nat :=
  let sel := selecionaCamadas layers
  match sel.2 with
  | [] => ({ published := [], crashed := false }, k)
  | [_] => ({ published := [], crashed := false }, k)
  | base :: c1 :: resto =>
    let crsBase := base.crs
    let bc := condiciona o base crsBase k
    if sel.1 then
      let g := genLoop o bc.1 crsBase (c1 :: resto) 1 bc.2
      ({ published := g.1, crashed := false }, g.2)
    else
      let oc := condiciona o c1 crsBase bc.2
      let ap := appStep o bc.1 oc.1 oc.2
      match resto with
      | c2 :: _ =>
        let rc := condiciona o c2 crsBase ap.2
        let rl := rlStep o ap.1.2 rc.1 rc.2
        ({ published := publica [ap.1.1, rl.1.1, rl.1.2], crashed := false }, rl.2)
      | [] =>
        match ap.1.2 with
        | none => ({ published := [], crashed := true }, ap.2)
        | some bf =>
          ({ published := publica [ap.1.1, none, some (bf.setName "Área de supressão fora")],
             crashed := false }, ap.2)

/-- Conditioning list comprehension of the unnamed script (line 196):
`[corrigir_geometria(reprojetar_para(l, crs_base)) for l in camadas]`. -/
def condicionaLista (o : Oracle) (crs : String) :
    List Layer → Nat → List (Option Layer) × Nat
  | [], k => ([], k)
  | l :: ls, k =>
    let c := condiciona o l crs k
    let r := condicionaLista o crs ls c.2
    (c.1 :: r.1, r.2)

/-- Index removal `[c for j, c in enumerate(camadas_corr) if j != i]`. -/
def removeIdx : List α → Nat → List α
  | [], _ => []
  | _ :: as, 0 => as
  | a :: as, i + 1 => a :: removeIdx as i

/-- Inner generic-mode loop of the unnamed script (lines 202-204): the
sequential unguarded difference chain `temp = difference(temp, o)` over
the other conditioned layers; any raised engine error escapes. -/
def cadeiaDiff (o : Oracle) :
    Option Layer → List (Option Layer) → Nat → Except Unit (Option Layer) × Nat
  | temp, [], k => (Except.ok temp, k)
  | temp, ov :: resto, k =>
    let r := chamada2 o k temp ov differenceOp
    match r.1 with
    | Except.ok l => cadeiaDiff o (some l) resto r.2
    | Except.error e => (Except.error e, r.2)

/-- Outer generic-mode loop of the unnamed script (lines 199-205): one
unguarded difference chain per conditioned layer against all others. -/
def listaExclusivas (o : Oracle) (todos : List (Option Layer)) :
    List (Option Layer) → Nat → Nat → Except Unit (List (Option Layer)) × Nat
  | [], _, k => (Except.ok [], k)
  | base :: resto, i, k =>
    let c := cadeiaDiff o base (removeIdx todos i) k
    match c.1 with
    | Except.ok t =>
      let r := listaExclusivas o todos resto (i + 1) c.2
      match r.1 with
      | Except.ok ts => (Except.ok (t :: ts), r.2)
      | Except.error e => (Except.error e, r.2)
    | Except.error e => (Except.error e, c.2)

/-- Collects a list of options, failing on any `None` (a `None` layer
handed to `native:mergevectorlayers` raises). -/
def todasPresentes : List (Option Layer) → Option (List Layer)
  | [] => some []
  | none :: _ => none
  | some l :: ls => (todasPresentes ls).map (fun r => l :: r)

/-- Result of a guarded difference: the engine output when it succeeded,
otherwise the previous base (`except` leaves the variable unassigned). -/
def caiEmBase (r : Except Unit Layer) (fb : Option Layer) : Option Layer :=
  match r with
  | Except.ok l => some l
  | Except.error _ => fb

/-- Final `else` branch of the unnamed script's priority mode (lines
184-188): renames, annotates and publishes the remaining base as "Área de
supressão fora"; calling `setName` on a Python `None` raises. -/
def foraOuQuebra (pa : List Layer) (b2 : Option Layer) (k : Nat) : RunOut × Nat :=
  match b2 with
  | none => ({ published := pa, crashed := true }, k)
  | some bf =>
    ({ published := pa ++ [adicionar_campo_area (bf.setName "Área de supressão fora")],
       crashed := false }, k)

/-- `Interseccao.executar` of the unnamed script `src/unnamed/part_000`:
priority branch when at least two environmental names match (publishing
each partition inside its own guarded block), otherwise the generic
"Fora Total" branch whose difference chains and merge are unguarded, so
an engine failure there escapes the run (`crashed = true`). -/
def executarP000 (o : Oracle) (layers : List Layer) (k : Nat) :
    RunOut × Nat :=
  let ambientais := matchCamadas nomes_prioritarios layers
  let genericas := matchCamadas nomes_genericos layers
  match ambientais with
  | base :: c1 :: resto =>
    let crsBase := base.crs
    let bc := condiciona o base crsBase k
    let oc := condiciona o c1 crsBase bc.2
    let r1 := chamada2 o oc.2 bc.1 oc.1 intersectionOp
    let pa : Option Layer × List Layer :=
      match r1.1 with
      | Except.ok l =>
        let la := adicionar_campo_area (l.setName "Área de supressão em APP")
        (some la, [la])
      | Except.error _ => (none, [])
    let ov2 : Option Layer :=
      match pa.1 with
      | some l => some l
      | none => oc.1
    let r2 := chamada2 o r1.2 bc.1 ov2 differenceOp
    let base2 : Option Layer := caiEmBase r2.1 bc.1
    match resto with
    | c2 :: _ =>
      let rc := condiciona o c2 crsBase r2.2
      let r3 := chamada2 o rc.2 rc.1 base2 intersectionOp
      let pr : Option Layer × List Layer :=
        match r3.1 with
        | Except.ok l =>
          let lr := adicionar_campo_area (l.setName "Área de supressão em RL")
          (some lr, [lr])
        | Except.error _ => (none, [])
      let ov3 : Option Layer :=
        match pr.1 with
        | some l => some l
        | none => rc.1
      let r4 := chamada2 o r3.2 base2 ov3 differenceOp
      let pf : List Layer :=
        match r4.1 with
        | Except.ok l => [adicionar_campo_area (l.setName "Área de supressão fora")]
        | Except.error _ => []
      ({ published := pa.2 ++ pr.2 ++ pf, crashed := false }, r4.2)
    | [] => foraOuQuebra pa.2 base2 r2.2
  | _ =>
    match genericas with
    | g0 :: g1 :: gresto =>
      let crsBase := g0.crs
      let cc := condicionaLista o crsBase (g0 :: g1 :: gresto) k
      let ex := listaExclusivas o cc.1 cc.1 0 cc.2
      match ex.1 with
      | Except.error _ => ({ published := [], crashed := true }, ex.2)
      | Except.ok exs =>
        match todasPresentes exs with
        | none => ({ published := [], crashed := true }, ex.2 + 1)
        | some ls =>
          if o ex.2 then ({ published := [], crashed := true }, ex.2 + 1)
          else
            let ft := adicionar_campo_area ((mergeOp ls crsBase).setName "Fora Total")
            ({ published := [ft], crashed := false }, ex.2 + 1)
    | _ => ({ published := [], crashed := false }, k)

/-- The oracle of a fault-free run: no engine call raises. -/
def semFalha : Oracle := fun _ => false

/-- Deterministic value of the conditioning idiom in a fault-free run on a
valid layer: reproject when the CRS differs, then repair. -/
def condPura (crs : String) (l : Layer) : Layer :=
  fixgeometries (if l.crs = crs then l else reprojectlayer l crs)

/-- Map with an explicit running index. -/
def mapIdx (f : Nat → α → β) : Nat → List α → List β
  | _, [] => []
  | i, a :: as => f i a :: mapIdx f (i + 1) as

/-- Fault-free value of the sequential difference chain of the unnamed
script's generic mode. -/
def cadeiaPura (t : Layer) : List Layer → Layer
  | [] => t
  | ov :: resto => cadeiaPura (differenceOp t ov) resto

/-- Fault-free exclusive regions of the unnamed script's generic mode:
the i-th entry is layer i with every other layer subtracted in order. -/
def exclusivasPuras (cs : List Layer) : List Layer :=
  mapIdx (fun i b => cadeiaPura b (removeIdx cs i)) 0 cs

/-- Sample layer builder used by concrete witnesses. -/
def mkCamada (nome crs : String) (g : Finset Nat) : Layer :=
  { name := nome, crs := crs, valid := true, fields := [],
    feats := [{ geom := some g, vals := [] }] }

/-- Concrete output layer used by the C8 witness: one feature of 3 m²,
one with a null geometry, one with an empty geometry. -/
def camadaC8 : Layer :=
  { name := "Saída teste", crs := "EPSG:31982", valid := true, fields := [],
    feats := [{ geom := some {0, 1, 2}, vals := [] },
              { geom := none, vals := [] },
              { geom := some ∅, vals := [] }] }

/-- Concrete layer used by the C9 witness. -/
def camadaC9 : Layer :=
  { name := "Outra saída", crs := "EPSG:31982", valid := true,
    fields := ["nome"], feats := [{ geom := some {5}, vals := [some 1] }] }

/-- Union of the regions covered by a list of layers. -/
def uniaoCamadas (ls : List Layer) : Finset Nat :=
  ls.foldr (fun l a => layerGeom l ∪ a) ∅

/-- Oracle failing exactly the seventh engine call of a run — in a
three-layer priority run this is the RL difference. -/
def oC3 : Oracle := fun k => k == 6

/-- Suppression base layer of the C3 counterexample. -/
def bC3 : Layer := mkCamada "área de supressão sul" "EPSG:31982" {0, 1}

/-- APP overlay layer of the C3 counterexample. -/
def aC3 : Layer := mkCamada "Área de Preservação Permanente brejo" "EPSG:31982" {0}

/-- RL overlay layer of the C3 counterexample. -/
def cC3 : Layer := mkCamada "Reserva legal mata" "EPSG:31982" {1}

/-- Oracle failing exactly the third engine call of a run — in a
two-layer generic run of the unnamed script this is the first
(unguarded) difference of the exclusive-region loop. -/
def oC4 : Oracle := fun k => k == 2

/-- C2: mode selection in `Interseccao.processamento` picks priority mode
exactly when at least two layers match the priority environmental names,
returning those matches unchanged regardless of how many generic names
would also match; the generic names are consulted only when the priority
scan yields fewer than two layers. -/
theorem c2_prioridade_tem_precedencia (L : List Layer) :
    (2 ≤ (matchCamadas nomes_prioritarios L).length →
      selecionaCamadas L = (false, matchCamadas nomes_prioritarios L)) ∧
    ((matchCamadas nomes_prioritarios L).length < 2 →
      selecionaCamadas L = (true, matchCamadas nomes_genericos L)) := by
  refine ⟨fun h => ?_, fun h => ?_⟩ <;> simp only [selecionaCamadas]
  · rw [if_neg (by omega)]
  · rw [if_pos h]

/-- Witness for C2 on a project holding two priority layers and two
generic layers: priority wins. -/
theorem c2_prioridade_tem_precedencia_witness :
    selecionaCamadas
      [mkCamada "área de supressão teste" "EPSG:31982" {0, 1},
       mkCamada "Reserva legal teste" "EPSG:31982" {1, 2},
       mkCamada "Camada01" "EPSG:31982" {0},
       mkCamada "Camada02" "EPSG:31982" {1}] =
    (false, matchCamadas nomes_prioritarios
      [mkCamada "área de supressão teste" "EPSG:31982" {0, 1},
       mkCamada "Reserva legal teste" "EPSG:31982" {1, 2},
       mkCamada "Camada01" "EPSG:31982" {0},
       mkCamada "Camada02" "EPSG:31982" {1}]) :=
  (c2_prioridade_tem_precedencia _).1 (by decide)

/-- C6: when fewer than two layers match in priority mode and fewer than
two match in generic mode, both runs stop after the insufficient-input
report: nothing is published, no crash occurs, and the engine-call
counter is unchanged, i.e. no geometry-engine operation was invoked. -/
theorem c6_entrada_insuficiente (L : List Layer) (k : Nat)
    (hp : (matchCamadas nomes_prioritarios L).length < 2)
    (hg : (matchCamadas nomes_genericos L).length < 2) :
    processamento semFalha L k = ({ published := [], crashed := false }, k) ∧
    executarP000 semFalha L k = ({ published := [], crashed := false }, k) := by
  constructor
  · have hsel : selecionaCamadas L = (true, matchCamadas nomes_genericos L) :=
      (c2_prioridade_tem_precedencia L).2 hp
    simp only [processamento, hsel]
    match hm : matchCamadas nomes_genericos L with
    | [] => rfl
    | [_] => rfl
    | a :: b :: r => rw [hm] at hg; simp at hg; omega
  · simp only [executarP000]
    match hm : matchCamadas nomes_prioritarios L with
    | a :: b :: r => rw [hm] at hp; simp at hp; omega
    | [] =>
      match hg2 : matchCamadas nomes_genericos L with
      | [] => rfl
      | [_] => rfl
      | a :: b :: r => rw [hg2] at hg; simp at hg; omega
    | [_] =>
      match hg2 : matchCamadas nomes_genericos L with
      | [] => rfl
      | [_] => rfl
      | a :: b :: r => rw [hg2] at hg; simp at hg; omega

/-- Witness for C6 on a project with one priority layer and one generic
layer: both runs publish nothing and invoke no engine operation. -/
theorem c6_entrada_insuficiente_witness :
    processamento semFalha
      [mkCamada "Reserva legal teste" "EPSG:31982" {1, 2},
       mkCamada "Camada01" "EPSG:31982" {0}] 0 =
      ({ published := [], crashed := false }, 0) ∧
    executarP000 semFalha
      [mkCamada "Reserva legal teste" "EPSG:31982" {1, 2},
       mkCamada "Camada01" "EPSG:31982" {0}] 0 =
      ({ published := [], crashed := false }, 0) :=
  c6_entrada_insuficiente _ 0 (by decide) (by decide)

/-- An invalid layer passes through the annotator unchanged. -/
theorem adicionar_invalida (l : Layer) (hv : l.valid = false) :
    adicionar_campo_area l = l := by
  simp [adicionar_campo_area, hv]

/-- Annotator on a valid layer that already has the field: values are
recomputed in place, the schema is untouched. -/
theorem adicionar_com_campo (l : Layer) (hv : l.valid = true)
    (hc : "Area_ha" ∈ l.fields) :
    adicionar_campo_area l =
      { l with feats := l.feats.map (marcaArea (l.fields.indexOf "Area_ha")) } := by
  simp [adicionar_campo_area, hv, hc]

/-- Annotator on a valid layer without the field: the field is appended
once and every feature's value list is extended before recomputation. -/
theorem adicionar_sem_campo (l : Layer) (hv : l.valid = true)
    (hc : "Area_ha" ∉ l.fields) :
    adicionar_campo_area l =
      { l with fields := l.fields ++ ["Area_ha"],
               feats := (l.feats.map estendeVals).map
                 (marcaArea ((l.fields ++ ["Area_ha"]).indexOf "Area_ha")) } := by
  simp [adicionar_campo_area, hv, hc]

/-- Rewriting a feature's area cell twice writes the same value. -/
theorem marcaArea_idem (idx : Nat) (f : Feat) :
    marcaArea idx (marcaArea idx f) = marcaArea idx f := by
  unfold marcaArea
  match hg : f.geom with
  | none => simp [hg]
  | some g =>
    by_cases he : g = ∅
    · simp [hg, he]
    · simp [hg, he, List.set_set]

/-- Null- and empty-geometry features are skipped by the annotator body. -/
theorem marcaArea_skip (idx : Nat) (f : Feat)
    (h : f.geom = none ∨ f.geom = some ∅) : marcaArea idx f = f := by
  unfold marcaArea
  rcases h with h | h <;> simp [h]

/-- A layer whose features are already annotator output is a fixed point
of the annotator. -/
theorem adicionar_fixa (X : Layer) (hv : X.valid = true) (hc : "Area_ha" ∈ X.fields)
    (fs : List Feat) (hfs : X.feats = fs.map (marcaArea (X.fields.indexOf "Area_ha"))) :
    adicionar_campo_area X = X := by
  rw [adicionar_com_campo X hv hc]
  cases X with
  | mk n c v fl ft =>
    simp only [Layer.mk.injEq, and_true, true_and]
    dsimp only at hfs
    rw [hfs, List.map_map]
    exact List.map_congr_left fun f _ => marcaArea_idem _ f

/-- C9: the area annotator is idempotent — a second run on any layer it
produced changes nothing — and after one run on a valid layer whose
schema did not already duplicate the field, `Area_ha` occurs exactly once
in the schema, so it occurs exactly once no matter how often the
annotator re-runs. -/
theorem c9_anotador_idempotente (l : Layer) :
    adicionar_campo_area (adicionar_campo_area l) = adicionar_campo_area l ∧
    (l.valid = true → l.fields.count "Area_ha" ≤ 1 →
      (adicionar_campo_area l).fields.count "Area_ha" = 1) := by
  constructor
  · match hv : l.valid with
    | false => rw [adicionar_invalida l hv, adicionar_invalida l hv]
    | true =>
      by_cases hc : "Area_ha" ∈ l.fields
      · rw [adicionar_com_campo l hv hc]
        exact adicionar_fixa _ hv hc l.feats rfl
      · rw [adicionar_sem_campo l hv hc]
        exact adicionar_fixa _ hv (by simp) (l.feats.map estendeVals) rfl
  · intro hv hcount
    by_cases hc : "Area_ha" ∈ l.fields
    · rw [adicionar_com_campo l hv hc]
      have h1 : 0 < l.fields.count "Area_ha" := List.count_pos_iff.mpr hc
      show l.fields.count "Area_ha" = 1
      omega
    · rw [adicionar_sem_campo l hv hc]
      have h0 : l.fields.count "Area_ha" = 0 := List.count_eq_zero_of_not_mem hc
      simp [List.count_append, h0]

/-- Witness for C9 at a concrete valid layer. -/
theorem c9_anotador_idempotente_witness :
    adicionar_campo_area (adicionar_campo_area camadaC9) = adicionar_campo_area camadaC9 ∧
    (adicionar_campo_area camadaC9).fields.count "Area_ha" = 1 :=
  ⟨(c9_anotador_idempotente camadaC9).1,
   (c9_anotador_idempotente camadaC9).2 (by decide) (by decide)⟩

/-- C8: for a valid layer with an aligned attribute table, every feature
with a non-null, non-empty geometry receives
`round(area / 10000, 4)` in the `Area_ha` slot, and every feature with a
null or empty geometry keeps that slot unset (not zero) when the field
was freshly created. -/
theorem c8_valor_da_area (l : Layer) (hv : l.valid = true)
    (ha : ∀ f ∈ l.feats, f.vals.length = l.fields.length) :
    ∀ j, j < l.feats.length →
      (∀ g, (l.feats.getD j featVazio).geom = some g → g ≠ ∅ →
        ((adicionar_campo_area l).feats.getD j featVazio).vals.getD
            ((adicionar_campo_area l).fields.indexOf "Area_ha") none
          = some (round4 (areaM2 g / 10000))) ∧
      (((l.feats.getD j featVazio).geom = none ∨ (l.feats.getD j featVazio).geom = some ∅) →
        "Area_ha" ∉ l.fields →
        ((adicionar_campo_area l).feats.getD j featVazio).vals.getD
            ((adicionar_campo_area l).fields.indexOf "Area_ha") none = none) := by
  intro j hj
  have hgd : l.feats.getD j featVazio = l.feats[j] := List.getD_eq_getElem l.feats featVazio hj
  have hmem : l.feats[j] ∈ l.feats := List.getElem_mem hj
  have hlen : (l.feats[j]).vals.length = l.fields.length := ha _ hmem
  by_cases hc : "Area_ha" ∈ l.fields
  · rw [adicionar_com_campo l hv hc]
    have hidx : l.fields.indexOf "Area_ha" < l.fields.length :=
      List.indexOf_lt_length.mpr hc
    constructor
    · intro g hg hne
      rw [hgd] at hg
      have hmap : (l.feats.map (marcaArea (l.fields.indexOf "Area_ha"))).getD j featVazio
          = marcaArea (l.fields.indexOf "Area_ha") l.feats[j] := by
        rw [List.getD_eq_getElem _ _ (by simpa using hj), List.getElem_map]
      dsimp only
      rw [hmap, marcaArea, hg]
      simp only [hne, if_false]
      rw [List.getD_eq_getElem?_getD, List.getElem?_set_eq_of_lt _ (by omega)]
      rfl
    · intro _ hno
      exact absurd hc hno
  · rw [adicionar_sem_campo l hv hc]
    have hidx : (l.fields ++ ["Area_ha"]).indexOf "Area_ha" = l.fields.length := by
      rw [List.indexOf_append_of_not_mem hc, List.indexOf_cons_self]
      omega
    have hmap : ((l.feats.map estendeVals).map
          (marcaArea ((l.fields ++ ["Area_ha"]).indexOf "Area_ha"))).getD j featVazio
        = marcaArea ((l.fields ++ ["Area_ha"]).indexOf "Area_ha")
            (estendeVals l.feats[j]) := by
      rw [List.getD_eq_getElem _ _ (by simpa using hj), List.getElem_map, List.getElem_map]
    constructor
    · intro g hg hne
      rw [hgd] at hg
      dsimp only
      rw [hmap, hidx]
      rw [marcaArea]
      have hgeq : (estendeVals l.feats[j]).geom = some g := hg
      rw [hgeq]
      simp only [hne, if_false]
      have hset : ((estendeVals l.feats[j]).vals.set l.fields.length
          (some (round4 (areaM2 g / 10000))))[l.fields.length]? =
          some (some (round4 (areaM2 g / 10000))) := by
        apply List.getElem?_set_eq_of_lt
        simp [estendeVals]
        omega
      rw [List.getD_eq_getElem?_getD, hset]
      rfl
    · intro hz _
      rw [hgd] at hz
      dsimp only
      rw [hmap, hidx]
      rcases hz with hz | hz
      · rw [marcaArea_skip _ (estendeVals (l.feats[j])) (Or.inl hz)]
        rw [List.getD_eq_getElem?_getD]
        have hcat : (estendeVals l.feats[j]).vals[l.fields.length]? = some none := by
          simp only [estendeVals]
          rw [← hlen, List.getElem?_concat_length]
        rw [hcat]
        rfl
      · rw [marcaArea_skip _ (estendeVals (l.feats[j])) (Or.inr hz)]
        rw [List.getD_eq_getElem?_getD]
        have hcat : (estendeVals l.feats[j]).vals[l.fields.length]? = some none := by
          simp only [estendeVals]
          rw [← hlen, List.getElem?_concat_length]
        rw [hcat]
        rfl

/-- Witness for C8 at a concrete three-feature layer: the 3 m² feature is
annotated with `round(3 / 10000, 4)` hectares and the null-geometry
feature's slot stays unset. -/
theorem c8_valor_da_area_witness :
    ((adicionar_campo_area camadaC8).feats.getD 0 featVazio).vals.getD
        ((adicionar_campo_area camadaC8).fields.indexOf "Area_ha") none
      = some (round4 (areaM2 {0, 1, 2} / 10000)) ∧
    ((adicionar_campo_area camadaC8).feats.getD 1 featVazio).vals.getD
        ((adicionar_campo_area camadaC8).fields.indexOf "Area_ha") none = none :=
  ⟨(c8_valor_da_area camadaC8 (by decide) (by decide) 0 (by decide)).1
      {0, 1, 2} (by decide) (by decide),
   (c8_valor_da_area camadaC8 (by decide) (by decide) 1 (by decide)).2
      (Or.inl (by decide)) (by decide)⟩

/-- A fault-free engine call on two present layers returns the operation
result. -/
theorem chamada2_semFalha (k : Nat) (a b : Layer) (f : Layer → Layer → Layer) :
    chamada2 semFalha k (some a) (some b) f = (Except.ok (f a b), k + 1) := rfl

/-- Fault-free conditioning of a valid layer is `condPura` (one engine
call when the CRS already matches, two otherwise). -/
theorem condiciona_semFalha (l : Layer) (crs : String) (k : Nat) (hv : l.valid = true) :
    condiciona semFalha l crs k =
      (some (condPura crs l), if l.crs = crs then k + 1 else k + 2) := by
  by_cases hcrs : l.crs = crs <;>
    simp [condiciona, reprojetar_para, corrigir_geometria, condPura, reprojectlayer,
      hv, hcrs, semFalha]

/-- Fault-free APP stage: intersection named, then base minus the named
intersection. -/
theorem appStep_semFalha (b ov : Layer) (k : Nat) :
    appStep semFalha (some b) (some ov) k =
      ((some ((intersectionOp b ov).setName "Área de supressão em APP"),
        some (differenceOp b ((intersectionOp b ov).setName "Área de supressão em APP"))),
       k + 2) := rfl

/-- Fault-free RL stage: intersection named, then remaining base minus the
named intersection, renamed to the outside partition. -/
theorem rlStep_semFalha (b ov : Layer) (k : Nat) :
    rlStep semFalha (some b) (some ov) k =
      ((some ((intersectionOp ov b).setName "Área de supressão em RL"),
        some ((differenceOp b
          ((intersectionOp ov b).setName "Área de supressão em RL")).setName
            "Área de supressão fora")),
       k + 2) := rfl

/-- Every matched layer comes from the scanned project layer list. -/
theorem mem_matchCamadas {l : Layer} {nomes : List String} {L : List Layer}
    (h : l ∈ matchCamadas nomes L) : l ∈ L := by
  simp only [matchCamadas, List.mem_flatMap, List.mem_filter] at h
  obtain ⟨nome, _, hl, _⟩ := h
  exact hl

/-- Fault-free priority run with exactly two matched layers: the APP and
outside partitions, published in order. -/
theorem processamento_duas_semFalha (L : List Layer) (k : Nat) (b a : Layer)
    (hval : ∀ l ∈ L, l.valid = true)
    (hm : matchCamadas nomes_prioritarios L = [b, a]) :
    (processamento semFalha L k).1 =
      { published :=
          [adicionar_campo_area
            ((intersectionOp (condPura b.crs b) (condPura b.crs a)).setName
              "Área de supressão em APP"),
           adicionar_campo_area
            ((differenceOp (condPura b.crs b)
                ((intersectionOp (condPura b.crs b) (condPura b.crs a)).setName
                  "Área de supressão em APP")).setName "Área de supressão fora")],
        crashed := false } := by
  have hvb : b.valid = true := hval b (mem_matchCamadas (hm ▸ List.mem_cons_self b [a]))
  have hva : a.valid = true := hval a (mem_matchCamadas (by rw [hm]; simp))
  have hsel : selecionaCamadas L = (false, [b, a]) := by
    simp [selecionaCamadas, hm]
  simp only [processamento, hsel,
    condiciona_semFalha b b.crs k hvb,
    condiciona_semFalha a b.crs _ hva,
    appStep_semFalha, publica]
  simp

/-- C7: in priority mode with exactly two matched layers (base and APP
overlay, no RL layer), a fault-free run of `Interseccao.processamento`
publishes exactly the partitions "Área de supressão em APP" and "Área de
supressão fora", the latter being the remaining base after the APP
difference; no RL partition is produced. -/
theorem c7_duas_camadas_prioritarias (L : List Layer) (k : Nat) (b a : Layer)
    (hval : ∀ l ∈ L, l.valid = true)
    (hm : matchCamadas nomes_prioritarios L = [b, a]) :
    (processamento semFalha L k).1 =
      { published :=
          [adicionar_campo_area
            ((intersectionOp (condPura b.crs b) (condPura b.crs a)).setName
              "Área de supressão em APP"),
           adicionar_campo_area
            ((differenceOp (condPura b.crs b)
                ((intersectionOp (condPura b.crs b) (condPura b.crs a)).setName
                  "Área de supressão em APP")).setName "Área de supressão fora")],
        crashed := false } :=
  processamento_duas_semFalha L k b a hval hm

/-- Witness for C7 on a concrete project with one suppression layer and
one APP layer. -/
theorem c7_duas_camadas_prioritarias_witness :
    (processamento semFalha
      [mkCamada "área de supressão norte" "EPSG:31982" {0, 1},
       mkCamada "Área de Preservação Permanente rio" "EPSG:31982" {1, 2}] 0).1 =
      { published :=
          [adicionar_campo_area
            ((intersectionOp
                (condPura (mkCamada "área de supressão norte" "EPSG:31982" {0, 1}).crs
                  (mkCamada "área de supressão norte" "EPSG:31982" {0, 1}))
                (condPura (mkCamada "área de supressão norte" "EPSG:31982" {0, 1}).crs
                  (mkCamada "Área de Preservação Permanente rio" "EPSG:31982" {1, 2}))).setName
              "Área de supressão em APP"),
           adicionar_campo_area
            ((differenceOp
                (condPura (mkCamada "área de supressão norte" "EPSG:31982" {0, 1}).crs
                  (mkCamada "área de supressão norte" "EPSG:31982" {0, 1}))
                ((intersectionOp
                    (condPura (mkCamada "área de supressão norte" "EPSG:31982" {0, 1}).crs
                      (mkCamada "área de supressão norte" "EPSG:31982" {0, 1}))
                    (condPura (mkCamada "área de supressão norte" "EPSG:31982" {0, 1}).crs
                      (mkCamada "Área de Preservação Permanente rio" "EPSG:31982" {1, 2}))).setName
                  "Área de supressão em APP")).setName "Área de supressão fora")],
        crashed := false } :=
  c7_duas_camadas_prioritarias _ 0 _ _ (by decide) (by decide)

/-- Fault-free generic loop of `Interseccao.processamento`: the
intersection input is the fixed conditioned base for every iteration. -/
theorem genLoop_semFalha (bp : Layer) (crs : String) (ovs : List Layer) :
    ∀ (i k : Nat), (∀ ov ∈ ovs, ov.valid = true) →
    (genLoop semFalha (some bp) crs ovs i k).1 =
      mapIdx (fun j ov => adicionar_campo_area
        ((intersectionOp bp (condPura crs ov)).setName
          ("Área Camada " ++ (if j < 10 then "0" ++ toString j else toString j)))) i ovs := by
  induction ovs with
  | nil => intro i k _; rfl
  | cons ov resto ih =>
    intro i k h
    simp only [genLoop,
      condiciona_semFalha ov crs k (h ov (List.mem_cons_self ov resto)),
      chamada2_semFalha, mapIdx]
    rw [ih (i + 1) _ (fun x hx => h x (List.mem_cons_of_mem _ hx))]

/-- C10: in the generic mode of `Interseccao.py`, every published layer
"Área Camada NN" is the intersection of the conditioned first matched
layer with conditioned layer `i` alone — `camada_corrente` is never
reassigned, so each output is a pairwise base-with-layer intersection
independent of the other overlays. -/
theorem c10_base_generica_constante (L : List Layer) (k : Nat) (g0 c1 : Layer) (resto : List Layer)
    (hval : ∀ l ∈ L, l.valid = true)
    (hm : matchCamadas nomes_genericos L = g0 :: c1 :: resto)
    (hp : (matchCamadas nomes_prioritarios L).length < 2) :
    (processamento semFalha L k).1 =
      { published := mapIdx (fun j ov => adicionar_campo_area
          ((intersectionOp (condPura g0.crs g0) (condPura g0.crs ov)).setName
            ("Área Camada " ++ (if j < 10 then "0" ++ toString j else toString j))))
          1 (c1 :: resto),
        crashed := false } := by
  have hg0 : g0.valid = true := hval g0 (mem_matchCamadas (by rw [hm]; simp))
  have hsel : selecionaCamadas L = (true, g0 :: c1 :: resto) := by
    simp [selecionaCamadas, hp, hm]
  have hov : ∀ ov ∈ c1 :: resto, ov.valid = true := by
    intro ov hovm
    exact hval ov (mem_matchCamadas (by rw [hm]; simp [List.mem_cons] at hovm ⊢; tauto))
  simp only [processamento, hsel, condiciona_semFalha g0 g0.crs k hg0]
  simp only [if_true]
  rw [genLoop_semFalha (condPura g0.crs g0) g0.crs (c1 :: resto) 1 _ hov]

/-- Witness for C10 on three concrete generic layers. -/
theorem c10_base_generica_constante_witness :
    (processamento semFalha
      [mkCamada "Camada01 solo" "EPSG:31982" {0, 1, 2},
       mkCamada "Camada02 água" "EPSG:31982" {1, 2},
       mkCamada "Camada03 mata" "EPSG:31982" {2, 3}] 0).1 =
      { published := mapIdx (fun j ov => adicionar_campo_area
          ((intersectionOp
              (condPura (mkCamada "Camada01 solo" "EPSG:31982" {0, 1, 2}).crs
                (mkCamada "Camada01 solo" "EPSG:31982" {0, 1, 2}))
              (condPura (mkCamada "Camada01 solo" "EPSG:31982" {0, 1, 2}).crs ov)).setName
            ("Área Camada " ++ (if j < 10 then "0" ++ toString j else toString j))))
          1 [mkCamada "Camada02 água" "EPSG:31982" {1, 2},
             mkCamada "Camada03 mata" "EPSG:31982" {2, 3}],
        crashed := false } :=
  c10_base_generica_constante _ 0 _ _ _ (by decide) (by decide) (by decide)

/-- `unionFeats` distributes over cons. -/
theorem unionFeats_cons (f : Feat) (fs : List Feat) :
    unionFeats (f :: fs) = f.geomD ∪ unionFeats fs := rfl

/-- `unionFeats` distributes over append. -/
theorem unionFeats_append (xs ys : List Feat) :
    unionFeats (xs ++ ys) = unionFeats xs ∪ unionFeats ys := by
  induction xs with
  | nil => simp [unionFeats]
  | cons f fs ih =>
    simp only [List.cons_append, unionFeats_cons, ih, Finset.union_assoc]

/-- Renaming does not change the covered region. -/
theorem layerGeom_setName (l : Layer) (n : String) :
    layerGeom (l.setName n) = layerGeom l := rfl

/-- Region law of the difference primitive. -/
theorem layerGeom_differenceOp (a b : Layer) :
    layerGeom (differenceOp a b) = layerGeom a \ layerGeom b := by
  show unionFeats (a.feats.filterMap (recortaFeat (layerGeom b)))
      = unionFeats a.feats \ layerGeom b
  induction a.feats with
  | nil => simp [unionFeats]
  | cons f fs ih =>
    by_cases hg : f.geomD \ layerGeom b = ∅
    · have hf : recortaFeat (layerGeom b) f = none := by
        unfold recortaFeat; exact if_pos hg
      rw [List.filterMap_cons, hf, ih, unionFeats_cons,
        Finset.union_sdiff_distrib, hg, Finset.empty_union]
    · have hf : recortaFeat (layerGeom b) f =
          some { geom := some (f.geomD \ layerGeom b), vals := f.vals } := by
        unfold recortaFeat; exact if_neg hg
      rw [List.filterMap_cons, hf, unionFeats_cons, unionFeats_cons, ih,
        Finset.union_sdiff_distrib]
      congr 1

/-- Region law of the intersection primitive, inner loop. -/
theorem unionFeats_cruza (f : Feat) (fbs : List Feat) :
    unionFeats (fbs.filterMap (cruzaFeat f)) = f.geomD ∩ unionFeats fbs := by
  induction fbs with
  | nil => simp [unionFeats]
  | cons fb fbs ih =>
    by_cases hg : f.geomD ∩ fb.geomD = ∅
    · have hf : cruzaFeat f fb = none := by
        unfold cruzaFeat; exact if_pos hg
      rw [List.filterMap_cons, hf, ih, unionFeats_cons,
        Finset.inter_union_distrib_left, hg, Finset.empty_union]
    · have hf : cruzaFeat f fb =
          some { geom := some (f.geomD ∩ fb.geomD), vals := f.vals ++ fb.vals } := by
        unfold cruzaFeat; exact if_neg hg
      rw [List.filterMap_cons, hf, unionFeats_cons, unionFeats_cons, ih,
        Finset.inter_union_distrib_left]
      congr 1

/-- Region law of the intersection primitive. -/
theorem layerGeom_intersectionOp (a b : Layer) :
    layerGeom (intersectionOp a b) = layerGeom a ∩ layerGeom b := by
  show unionFeats (a.feats.flatMap (fun fa => b.feats.filterMap (cruzaFeat fa)))
      = unionFeats a.feats ∩ layerGeom b
  induction a.feats with
  | nil => simp [unionFeats]
  | cons f fs ih =>
    rw [List.flatMap_cons, unionFeats_append, ih, unionFeats_cons,
      Finset.union_inter_distrib_right, unionFeats_cruza]
    rfl

/-- Mapping a geometry-preserving transform leaves the region unchanged. -/
theorem unionFeats_map_preserva (h : Feat → Feat)
    (hp : ∀ f, (h f).geomD = f.geomD) (fs : List Feat) :
    unionFeats (fs.map h) = unionFeats fs := by
  induction fs with
  | nil => rfl
  | cons f fs ih => rw [List.map_cons, unionFeats_cons, unionFeats_cons, hp, ih]

/-- The annotator body does not touch geometry. -/
theorem marcaArea_geomD (idx : Nat) (f : Feat) : (marcaArea idx f).geomD = f.geomD := by
  unfold marcaArea
  match hg : f.geom with
  | none => rfl
  | some g =>
    by_cases he : g = ∅
    · simp [he]
    · simp [Feat.geomD, he, hg]

/-- The area annotator does not change the covered region. -/
theorem layerGeom_adicionar (l : Layer) :
    layerGeom (adicionar_campo_area l) = layerGeom l := by
  match hv : l.valid with
  | false => rw [adicionar_invalida l hv]
  | true =>
    by_cases hc : "Area_ha" ∈ l.fields
    · rw [adicionar_com_campo l hv hc]
      exact unionFeats_map_preserva _ (marcaArea_geomD _) l.feats
    · rw [adicionar_sem_campo l hv hc]
      show unionFeats ((l.feats.map estendeVals).map _) = unionFeats l.feats
      rw [unionFeats_map_preserva _ (marcaArea_geomD _),
        unionFeats_map_preserva estendeVals (fun f => rfl)]

/-- C5: in the priority pipeline's APP stage (lines 192-201 of
`Interseccao.py`, lines 145-153 of the unnamed script), whenever the APP
difference call itself succeeds the remaining base is always the base
minus the APP partition when the APP intersection succeeded, and the base
minus the conditioned raw APP overlay when the intersection failed; in
either case the remaining base is geometrically disjoint from the APP
overlay, so the APP-overlapping area is removed before any later stage. -/
theorem c5_app_sempre_removida (o : Oracle) (k : Nat) (b ov : Layer)
    (hdiff : o (k + 1) = false) :
    (o k = false →
      (appStep o (some b) (some ov) k).1 =
        (some ((intersectionOp b ov).setName "Área de supressão em APP"),
         some (differenceOp b ((intersectionOp b ov).setName "Área de supressão em APP")))) ∧
    (o k = true →
      (appStep o (some b) (some ov) k).1 = (none, some (differenceOp b ov))) ∧
    (∀ nb, (appStep o (some b) (some ov) k).1.2 = some nb →
      layerGeom nb ∩ layerGeom ov = ∅) := by
  refine ⟨fun hk => ?_, fun hk => ?_, fun nb hnb => ?_⟩
  · simp [appStep, chamada2, hk, hdiff]
  · simp [appStep, chamada2, hk, hdiff]
  · match hk : o k with
    | false =>
      simp only [appStep, chamada2, hk, hdiff] at hnb
      simp only [if_false, Bool.false_eq_true] at hnb
      rw [Option.some.injEq] at hnb
      subst hnb
      rw [layerGeom_differenceOp, layerGeom_setName, layerGeom_intersectionOp]
      ext x
      simp only [Finset.mem_inter, Finset.mem_sdiff, Finset.not_mem_empty, iff_false]
      tauto
    | true =>
      simp only [appStep, chamada2, hk, hdiff] at hnb
      simp only [if_false, if_true, Bool.false_eq_true] at hnb
      rw [Option.some.injEq] at hnb
      subst hnb
      rw [layerGeom_differenceOp]
      ext x
      simp only [Finset.mem_inter, Finset.mem_sdiff, Finset.not_mem_empty, iff_false]
      tauto

/-- Witness for C5 at concrete layers, fault-free oracle. -/
theorem c5_app_sempre_removida_witness :
    (appStep semFalha
        (some (mkCamada "base" "EPSG:31982" {0, 1}))
        (some (mkCamada "app" "EPSG:31982" {1, 2})) 0).1 =
      (some ((intersectionOp (mkCamada "base" "EPSG:31982" {0, 1})
          (mkCamada "app" "EPSG:31982" {1, 2})).setName "Área de supressão em APP"),
       some (differenceOp (mkCamada "base" "EPSG:31982" {0, 1})
         ((intersectionOp (mkCamada "base" "EPSG:31982" {0, 1})
            (mkCamada "app" "EPSG:31982" {1, 2})).setName "Área de supressão em APP"))) ∧
    layerGeom (differenceOp (mkCamada "base" "EPSG:31982" {0, 1})
        ((intersectionOp (mkCamada "base" "EPSG:31982" {0, 1})
           (mkCamada "app" "EPSG:31982" {1, 2})).setName "Área de supressão em APP")) ∩
      layerGeom (mkCamada "app" "EPSG:31982" {1, 2}) = ∅ :=
  ⟨(c5_app_sempre_removida semFalha 0 (mkCamada "base" "EPSG:31982" {0, 1})
      (mkCamada "app" "EPSG:31982" {1, 2}) rfl).1 rfl,
   (c5_app_sempre_removida semFalha 0 (mkCamada "base" "EPSG:31982" {0, 1})
      (mkCamada "app" "EPSG:31982" {1, 2}) rfl).2.2
     (differenceOp (mkCamada "base" "EPSG:31982" {0, 1})
       ((intersectionOp (mkCamada "base" "EPSG:31982" {0, 1})
          (mkCamada "app" "EPSG:31982" {1, 2})).setName "Área de supressão em APP"))
     (by decide)⟩

/-- Element access in an index-carrying map. -/
theorem mapIdx_getD (f : Nat → Layer → Layer) (d : Layer) :
    ∀ (l : List Layer) (s i : Nat), i < l.length →
      (mapIdx f s l).getD i d = f (s + i) (l.getD i d) := by
  intro l
  induction l with
  | nil => intro s i hi; simp at hi
  | cons a as ih =>
    intro s i hi
    match i with
    | 0 => rfl
    | i + 1 =>
      show (mapIdx f (s + 1) as).getD i d = f (s + (i + 1)) ((a :: as).getD (i + 1) d)
      rw [ih (s + 1) i (by simpa using hi), Nat.add_succ, Nat.succ_add]
      rfl

/-- Region of a sequential difference chain: everything of the start layer
outside the union of the subtracted layers. -/
theorem cadeiaPura_geom (os : List Layer) :
    ∀ t, layerGeom (cadeiaPura t os) = layerGeom t \ uniaoCamadas os := by
  induction os with
  | nil =>
    intro t
    show layerGeom t = layerGeom t \ ∅
    rw [Finset.sdiff_empty]
  | cons o os ih =>
    intro t
    show layerGeom (cadeiaPura (differenceOp t o) os) =
      layerGeom t \ (layerGeom o ∪ uniaoCamadas os)
    rw [ih (differenceOp t o), layerGeom_differenceOp]
    ext x
    simp only [Finset.mem_sdiff, Finset.mem_union]
    tauto

/-- A member layer's region is inside the list union. -/
theorem mem_uniaoCamadas {l : Layer} {ls : List Layer} (h : l ∈ ls) :
    layerGeom l ⊆ uniaoCamadas ls := by
  induction ls with
  | nil => cases h
  | cons a as ih =>
    show layerGeom l ⊆ layerGeom a ∪ uniaoCamadas as
    rcases List.mem_cons.mp h with h | h
    · subst h; exact Finset.subset_union_left
    · exact (ih h).trans Finset.subset_union_right

/-- Any other position survives removal of position `i`. -/
theorem removeIdx_getD_mem (d : Layer) :
    ∀ (cs : List Layer) (i j : Nat), j < cs.length → j ≠ i →
      cs.getD j d ∈ removeIdx cs i := by
  intro cs
  induction cs with
  | nil => intro i j hj _; simp at hj
  | cons a as ih =>
    intro i j hj hij
    match i, j with
    | 0, 0 => exact absurd rfl hij
    | 0, j + 1 =>
      show (a :: as).getD (j + 1) d ∈ as
      have hj' : j < as.length := by simpa using hj
      rw [List.getD_cons_succ, List.getD_eq_getElem _ _ hj']
      exact List.getElem_mem hj'
    | i + 1, 0 => exact List.mem_cons_self _ _
    | i + 1, j + 1 =>
      show (a :: as).getD (j + 1) d ∈ a :: removeIdx as i
      rw [List.getD_cons_succ]
      exact List.mem_cons_of_mem _ (ih i j (by simpa using hj) (by omega))

/-- The i-th exclusive region is the i-th conditioned layer minus all the
others. -/
theorem exclusivas_getD (cs : List Layer) (i : Nat) (hi : i < cs.length) :
    (exclusivasPuras cs).getD i camadaVazia =
      cadeiaPura (cs.getD i camadaVazia) (removeIdx cs i) := by
  unfold exclusivasPuras
  rw [mapIdx_getD _ camadaVazia cs 0 i hi, Nat.zero_add]

/-- The exclusive regions of the generic pipeline are pairwise disjoint. -/
theorem exclusivas_disjuntas (cs : List Layer) (i j : Nat)
    (hi : i < cs.length) (hj : j < cs.length) (hij : i ≠ j) :
    layerGeom ((exclusivasPuras cs).getD i camadaVazia) ∩
      layerGeom ((exclusivasPuras cs).getD j camadaVazia) = ∅ := by
  rw [exclusivas_getD cs i hi, exclusivas_getD cs j hj,
    cadeiaPura_geom, cadeiaPura_geom]
  have hsubj : layerGeom (cs.getD j camadaVazia) ⊆ uniaoCamadas (removeIdx cs i) :=
    mem_uniaoCamadas (removeIdx_getD_mem camadaVazia cs i j hj (fun h => hij h.symm))
  rw [Finset.eq_empty_iff_forall_not_mem]
  intro x hx
  rw [Finset.mem_inter, Finset.mem_sdiff, Finset.mem_sdiff] at hx
  exact hx.1.2 (hsubj hx.2.1)

/-- Fault-free priority run with at least three matched layers: the three
named partitions, published in order. -/
theorem processamento_tres_semFalha (L : List Layer) (k : Nat)
    (b a c : Layer) (resto : List Layer)
    (hval : ∀ l ∈ L, l.valid = true)
    (hm : matchCamadas nomes_prioritarios L = b :: a :: c :: resto) :
    (processamento semFalha L k).1 =
      { published :=
          [adicionar_campo_area
            ((intersectionOp (condPura b.crs b) (condPura b.crs a)).setName
              "Área de supressão em APP"),
           adicionar_campo_area
            ((intersectionOp (condPura b.crs c)
                (differenceOp (condPura b.crs b)
                  ((intersectionOp (condPura b.crs b) (condPura b.crs a)).setName
                    "Área de supressão em APP"))).setName "Área de supressão em RL"),
           adicionar_campo_area
            ((differenceOp
                (differenceOp (condPura b.crs b)
                  ((intersectionOp (condPura b.crs b) (condPura b.crs a)).setName
                    "Área de supressão em APP"))
                ((intersectionOp (condPura b.crs c)
                    (differenceOp (condPura b.crs b)
                      ((intersectionOp (condPura b.crs b) (condPura b.crs a)).setName
                        "Área de supressão em APP"))).setName
                  "Área de supressão em RL")).setName "Área de supressão fora")],
        crashed := false } := by
  have hvb : b.valid = true := hval b (mem_matchCamadas (by rw [hm]; simp))
  have hva : a.valid = true := hval a (mem_matchCamadas (by rw [hm]; simp))
  have hvc : c.valid = true := hval c (mem_matchCamadas (by rw [hm]; simp))
  have hsel : selecionaCamadas L = (false, b :: a :: c :: resto) := by
    simp [selecionaCamadas, hm]
  simp only [processamento, hsel,
    condiciona_semFalha b b.crs k hvb,
    condiciona_semFalha a b.crs _ hva,
    appStep_semFalha,
    condiciona_semFalha c b.crs _ hvc,
    rlStep_semFalha, publica]
  simp

/-- C3 (amended): in fault-free runs the published priority partitions are
pairwise geometrically disjoint, and the generic-mode exclusive regions
(the partitions inside "Fora Total") are always pairwise disjoint; the
original claim's inclusion of failure-fallback runs does not hold (see
the counterexample). -/
theorem c3_particoes_disjuntas_corrigida :
    (∀ (L : List Layer) (k : Nat) (b a : Layer) (resto : List Layer),
      (∀ l ∈ L, l.valid = true) →
      matchCamadas nomes_prioritarios L = b :: a :: resto →
      ∀ p ∈ (processamento semFalha L k).1.published,
        ∀ q ∈ (processamento semFalha L k).1.published,
          p = q ∨ layerGeom p ∩ layerGeom q = ∅) ∧
    (∀ (cs : List Layer) (i j : Nat), i < cs.length → j < cs.length → i ≠ j →
      layerGeom ((exclusivasPuras cs).getD i camadaVazia) ∩
        layerGeom ((exclusivasPuras cs).getD j camadaVazia) = ∅) := by
  constructor
  · intro L k b a resto hval hm
    match resto with
    | [] =>
      rw [processamento_duas_semFalha L k b a hval hm]
      intro p hp q hq
      simp only [List.mem_cons, List.not_mem_nil, or_false] at hp hq
      rcases hp with rfl | rfl <;> rcases hq with rfl | rfl
      · exact Or.inl rfl
      · refine Or.inr ?_
        simp only [layerGeom_adicionar, layerGeom_setName, layerGeom_differenceOp,
          layerGeom_intersectionOp]
        rw [Finset.eq_empty_iff_forall_not_mem]
        intro x hx
        simp only [Finset.mem_inter, Finset.mem_sdiff] at hx
        tauto
      · refine Or.inr ?_
        simp only [layerGeom_adicionar, layerGeom_setName, layerGeom_differenceOp,
          layerGeom_intersectionOp]
        rw [Finset.eq_empty_iff_forall_not_mem]
        intro x hx
        simp only [Finset.mem_inter, Finset.mem_sdiff] at hx
        tauto
      · exact Or.inl rfl
    | c :: resto2 =>
      rw [processamento_tres_semFalha L k b a c resto2 hval hm]
      intro p hp q hq
      simp only [List.mem_cons, List.not_mem_nil, or_false] at hp hq
      rcases hp with rfl | rfl | rfl <;> rcases hq with rfl | rfl | rfl
      · exact Or.inl rfl
      · refine Or.inr ?_
        simp only [layerGeom_adicionar, layerGeom_setName, layerGeom_differenceOp,
          layerGeom_intersectionOp]
        rw [Finset.eq_empty_iff_forall_not_mem]
        intro x hx
        simp only [Finset.mem_inter, Finset.mem_sdiff] at hx
        tauto
      · refine Or.inr ?_
        simp only [layerGeom_adicionar, layerGeom_setName, layerGeom_differenceOp,
          layerGeom_intersectionOp]
        rw [Finset.eq_empty_iff_forall_not_mem]
        intro x hx
        simp only [Finset.mem_inter, Finset.mem_sdiff] at hx
        tauto
      · refine Or.inr ?_
        simp only [layerGeom_adicionar, layerGeom_setName, layerGeom_differenceOp,
          layerGeom_intersectionOp]
        rw [Finset.eq_empty_iff_forall_not_mem]
        intro x hx
        simp only [Finset.mem_inter, Finset.mem_sdiff] at hx
        tauto
      · exact Or.inl rfl
      · refine Or.inr ?_
        simp only [layerGeom_adicionar, layerGeom_setName, layerGeom_differenceOp,
          layerGeom_intersectionOp]
        rw [Finset.eq_empty_iff_forall_not_mem]
        intro x hx
        simp only [Finset.mem_inter, Finset.mem_sdiff] at hx
        tauto
      · refine Or.inr ?_
        simp only [layerGeom_adicionar, layerGeom_setName, layerGeom_differenceOp,
          layerGeom_intersectionOp]
        rw [Finset.eq_empty_iff_forall_not_mem]
        intro x hx
        simp only [Finset.mem_inter, Finset.mem_sdiff] at hx
        tauto
      · refine Or.inr ?_
        simp only [layerGeom_adicionar, layerGeom_setName, layerGeom_differenceOp,
          layerGeom_intersectionOp]
        rw [Finset.eq_empty_iff_forall_not_mem]
        intro x hx
        simp only [Finset.mem_inter, Finset.mem_sdiff] at hx
        tauto
      · exact Or.inl rfl
  · exact fun cs i j hi hj hij => exclusivas_disjuntas cs i j hi hj hij

/-- Witness for the amended C3 at a concrete fault-free three-layer
priority project and a concrete two-layer exclusive-region computation. -/
theorem c3_particoes_disjuntas_corrigida_witness :
    ((processamento semFalha [bC3, aC3, cC3] 0).1.published.getD 1 camadaVazia =
       (processamento semFalha [bC3, aC3, cC3] 0).1.published.getD 2 camadaVazia ∨
     layerGeom ((processamento semFalha [bC3, aC3, cC3] 0).1.published.getD 1 camadaVazia) ∩
       layerGeom ((processamento semFalha [bC3, aC3, cC3] 0).1.published.getD 2 camadaVazia)
         = ∅) ∧
    layerGeom ((exclusivasPuras [bC3, aC3]).getD 0 camadaVazia) ∩
      layerGeom ((exclusivasPuras [bC3, aC3]).getD 1 camadaVazia) = ∅ :=
  have hlen1 : 1 < (processamento semFalha [bC3, aC3, cC3] 0).1.published.length := by decide
  have hlen2 : 2 < (processamento semFalha [bC3, aC3, cC3] 0).1.published.length := by decide
  have hm1 : (processamento semFalha [bC3, aC3, cC3] 0).1.published.getD 1 camadaVazia ∈
      (processamento semFalha [bC3, aC3, cC3] 0).1.published := by
    rw [List.getD_eq_getElem _ _ hlen1]; exact List.getElem_mem hlen1
  have hm2 : (processamento semFalha [bC3, aC3, cC3] 0).1.published.getD 2 camadaVazia ∈
      (processamento semFalha [bC3, aC3, cC3] 0).1.published := by
    rw [List.getD_eq_getElem _ _ hlen2]; exact List.getElem_mem hlen2
  ⟨c3_particoes_disjuntas_corrigida.1 [bC3, aC3, cC3] 0 bC3 aC3 [cC3]
      (by decide) (by decide) _ hm1 _ hm2,
   c3_particoes_disjuntas_corrigida.2 [bC3, aC3] 0 1
      (by decide) (by decide) (by decide)⟩

/-- C3 counterexample: with the RL difference failing (oracle `oC3`), the
run publishes the RL partition and, as fallback, the un-diffed remaining
base as "fora"; the two published partitions overlap on cell 1, so they
are not geometrically disjoint. -/
theorem c3_particoes_disjuntas_contraexemplo :
    (processamento oC3 [bC3, aC3, cC3] 0).1.published.length = 3 ∧
    layerGeom ((processamento oC3 [bC3, aC3, cC3] 0).1.published.getD 1 camadaVazia) ∩
      layerGeom ((processamento oC3 [bC3, aC3, cC3] 0).1.published.getD 2 camadaVazia)
        = {1} ∧
    layerGeom ((processamento oC3 [bC3, aC3, cC3] 0).1.published.getD 1 camadaVazia) ∩
      layerGeom ((processamento oC3 [bC3, aC3, cC3] 0).1.published.getD 2 camadaVazia)
        ≠ ∅ := by
  refine ⟨by decide, by decide, ?_⟩
  decide

/-- Conditioning a valid layer always yields a present, valid layer, no
matter which calls fail. -/
theorem condiciona_alguma (o : Oracle) (l : Layer) (crs : String) (k : Nat)
    (hv : l.valid = true) :
    ∃ x k2, condiciona o l crs k = (some x, k2) ∧ x.valid = true := by
  by_cases h1 : l.crs = crs
  · refine ⟨l, k + 1, ?_, hv⟩
    by_cases h2 : o k <;>
      simp [condiciona, reprojetar_para, corrigir_geometria, fixgeometries, hv, h1, h2]
  · by_cases h2 : o k
    · refine ⟨l, k + 2, ?_, hv⟩
      by_cases h3 : o (k + 1) <;>
        simp [condiciona, reprojetar_para, corrigir_geometria, fixgeometries, hv, h1, h2, h3]
    · refine ⟨reprojectlayer l crs, k + 2, ?_, hv⟩
      by_cases h3 : o (k + 1) <;>
        simp [condiciona, reprojetar_para, corrigir_geometria, fixgeometries,
          reprojectlayer, hv, h1, h2, h3]

/-- The APP stage always hands a present remaining base onward when the
incoming base is present. -/
theorem appStep_base_alguma (o : Oracle) (k : Nat) (b : Layer) (ov : Option Layer) :
    ∃ y, (appStep o (some b) ov k).1.2 = some y := by
  rcases ov with _ | ov
  · exact ⟨b, rfl⟩
  · cases h1 : o k
    · cases h2 : o (k + 1)
      · exact ⟨differenceOp b ((intersectionOp b ov).setName "Área de supressão em APP"),
          by simp [appStep, chamada2, h1, h2]⟩
      · exact ⟨b, by simp [appStep, chamada2, h1, h2]⟩
    · cases h2 : o (k + 1)
      · exact ⟨differenceOp b ov, by simp [appStep, chamada2, h1, h2]⟩
      · exact ⟨b, by simp [appStep, chamada2, h1, h2]⟩

/-- A layer selected by the mode decision comes from the project. -/
theorem sel2_mem {l : Layer} {L : List Layer}
    (h : l ∈ (selecionaCamadas L).2) : l ∈ L := by
  unfold selecionaCamadas at h
  by_cases hc : (matchCamadas nomes_prioritarios L).length < 2
  · rw [if_pos hc] at h
    exact mem_matchCamadas h
  · rw [if_neg hc] at h
    exact mem_matchCamadas h

/-- `Interseccao.processamento` never lets an engine failure escape when
the project layers are valid. -/
theorem processamento_nao_quebra (o : Oracle) (L : List Layer) (k : Nat)
    (hval : ∀ l ∈ L, l.valid = true) :
    (processamento o L k).1.crashed = false := by
  simp only [processamento]
  match hc : (selecionaCamadas L).2 with
  | [] => rfl
  | [_] => rfl
  | base :: c1 :: resto =>
    dsimp only
    have hbase : base.valid = true :=
      hval base (sel2_mem (hc ▸ List.mem_cons_self base (c1 :: resto)))
    obtain ⟨x, k2, hx, hxv⟩ := condiciona_alguma o base base.crs k hbase
    rw [hx]
    dsimp only
    by_cases hb : (selecionaCamadas L).1
    · simp [hb]
    · simp only [hb, Bool.false_eq_true, if_false]
      match resto with
      | c2 :: resto2 => rfl
      | [] =>
        obtain ⟨y, hy⟩ :=
          appStep_base_alguma o (condiciona o c1 base.crs k2).2 x
            (condiciona o c1 base.crs k2).1
        rw [hy]

/-- The final priority branch of the unnamed script never crashes when the
remaining base is present. -/
theorem foraOuQuebra_nao_quebra (pa : List Layer) (R : Except Unit Layer)
    (x : Layer) (kk : Nat) :
    (foraOuQuebra pa (caiEmBase R (some x)) kk).1.crashed = false := by
  cases R with
  | ok l => rfl
  | error e => rfl

/-- The unnamed script's priority branch never lets an engine failure
escape when the project layers are valid. -/
theorem executar_prioritario_nao_quebra (o : Oracle) (L : List Layer) (k : Nat)
    (hval : ∀ l ∈ L, l.valid = true)
    (h2 : 2 ≤ (matchCamadas nomes_prioritarios L).length) :
    (executarP000 o L k).1.crashed = false := by
  simp only [executarP000]
  match hm : matchCamadas nomes_prioritarios L with
  | [] => rw [hm] at h2; simp only [List.length] at h2; omega
  | [x] => rw [hm] at h2; simp only [List.length] at h2; omega
  | base :: c1 :: resto =>
    dsimp only
    have hbase : base.valid = true := hval base (mem_matchCamadas (by rw [hm]; simp))
    obtain ⟨x, k2, hx, _⟩ := condiciona_alguma o base base.crs k hbase
    rw [hx]
    dsimp only
    match resto with
    | c2 :: resto2 => rfl
    | [] => exact foraOuQuebra_nao_quebra _ _ _ _

/-- C4 (amended): for valid input layers, no engine failure ever escapes
`Interseccao.processamento` (either mode) nor the unnamed script's
priority mode, under every failure pattern; the original claim's
inclusion of the unnamed script's generic mode does not hold (see the
counterexample), because its difference chain and merge are unguarded. -/
theorem c4_sem_excecao_corrigida (o : Oracle) (L : List Layer) (k : Nat)
    (hval : ∀ l ∈ L, l.valid = true) :
    (processamento o L k).1.crashed = false ∧
    (2 ≤ (matchCamadas nomes_prioritarios L).length →
      (executarP000 o L k).1.crashed = false) :=
  ⟨processamento_nao_quebra o L k hval,
   fun h2 => executar_prioritario_nao_quebra o L k hval h2⟩

/-- Witness for the amended C4 under an oracle that does fail one call. -/
theorem c4_sem_excecao_corrigida_witness :
    (processamento oC3 [bC3, aC3, cC3] 0).1.crashed = false ∧
    (executarP000 oC3 [bC3, aC3, cC3] 0).1.crashed = false :=
  ⟨(c4_sem_excecao_corrigida oC3 [bC3, aC3, cC3] 0 (by decide)).1,
   (c4_sem_excecao_corrigida oC3 [bC3, aC3, cC3] 0 (by decide)).2 (by decide)⟩

/-- C4 counterexample: in the unnamed script's generic mode the difference
chain runs outside any try/except; with two valid generic layers and the
third engine call (the first exclusive-region difference) raising, the
exception escapes `executar`, the run aborts and nothing is published. -/
theorem c4_sem_excecao_contraexemplo :
    (executarP000 oC4
      [mkCamada "Camada01 área A" "EPSG:31982" {0, 1},
       mkCamada "Camada02 área B" "EPSG:31982" {1, 2}] 0).1 =
      { published := [], crashed := true } := by decide

/-- `removeIdx` commutes with `map`. -/
theorem removeIdx_map {α β : Type} (f : α → β) :
    ∀ (ls : List α) (i : Nat),
      removeIdx (ls.map f) i = (removeIdx ls i).map f := by
  intro ls
  induction ls with
  | nil => intro i; rfl
  | cons a as ih =>
    intro i
    match i with
    | 0 => rfl
    | i + 1 => simp only [List.map_cons, removeIdx, ih i]

/-- Fault-free conditioning of a valid layer list. -/
theorem condicionaLista_semFalha (crs : String) :
    ∀ (ls : List Layer) (k : Nat), (∀ l ∈ ls, l.valid = true) →
      ∃ k2, condicionaLista semFalha crs ls k =
        (ls.map (fun l => some (condPura crs l)), k2) := by
  intro ls
  induction ls with
  | nil => intro k _; exact ⟨k, rfl⟩
  | cons a as ih =>
    intro k h
    obtain ⟨k2, h2⟩ := ih (if a.crs = crs then k + 1 else k + 2)
      (fun l hl => h l (List.mem_cons_of_mem _ hl))
    refine ⟨k2, ?_⟩
    simp only [condicionaLista,
      condiciona_semFalha a crs k (h a (List.mem_cons_self a as)), h2, List.map_cons]

/-- Fault-free difference chain evaluates to `cadeiaPura`. -/
theorem cadeiaDiff_semFalha :
    ∀ (os : List Layer) (t : Layer) (k : Nat),
      ∃ k2, cadeiaDiff semFalha (some t) (os.map some) k =
        (Except.ok (some (cadeiaPura t os)), k2) := by
  intro os
  induction os with
  | nil => intro t k; exact ⟨k, rfl⟩
  | cons o os ih =>
    intro t k
    obtain ⟨k2, h2⟩ := ih (differenceOp t o) (k + 1)
    refine ⟨k2, ?_⟩
    simp only [List.map_cons, cadeiaDiff, chamada2_semFalha]
    exact h2

/-- Fault-free exclusive-region loop evaluates to the pure chains. -/
theorem listaExclusivas_semFalha (cs2 : List Layer) :
    ∀ (rest : List Layer) (i k : Nat),
      ∃ k2, listaExclusivas semFalha (cs2.map some) (rest.map some) i k =
        (Except.ok (mapIdx (fun j b => some (cadeiaPura b (removeIdx cs2 j))) i rest), k2) := by
  intro rest
  induction rest with
  | nil => intro i k; exact ⟨k, rfl⟩
  | cons b rest ih =>
    intro i k
    obtain ⟨kc, hc⟩ := cadeiaDiff_semFalha (removeIdx cs2 i) b k
    obtain ⟨k2, h2⟩ := ih (i + 1) kc
    refine ⟨k2, ?_⟩
    simp only [List.map_cons, listaExclusivas, removeIdx_map some cs2 i, hc, h2, mapIdx]

/-- Collecting a list of present layers succeeds. -/
theorem todasPresentes_map (ls : List Layer) :
    todasPresentes (ls.map some) = some ls := by
  induction ls with
  | nil => rfl
  | cons a as ih => simp [todasPresentes, ih]

/-- An index-carrying map into `some` factors through `map some`. -/
theorem mapIdx_some (g : Nat → Layer → Layer) :
    ∀ (l : List Layer) (i : Nat),
      mapIdx (fun j b => some (g j b)) i l = (mapIdx g i l).map some := by
  intro l
  induction l with
  | nil => intro i; rfl
  | cons a as ih => intro i; simp only [mapIdx, List.map_cons, ih]

/-- Fault-free generic run of the unnamed script: one merged "Fora Total"
layer made of the pure exclusive regions of the conditioned inputs. -/
theorem executar_generico_semFalha (L : List Layer) (k : Nat)
    (g0 g1 : Layer) (gresto : List Layer)
    (hval : ∀ l ∈ L, l.valid = true)
    (hp : (matchCamadas nomes_prioritarios L).length < 2)
    (hm : matchCamadas nomes_genericos L = g0 :: g1 :: gresto) :
    (executarP000 semFalha L k).1 =
      { published := [adicionar_campo_area
          ((mergeOp (exclusivasPuras ((g0 :: g1 :: gresto).map (condPura g0.crs)))
              g0.crs).setName "Fora Total")],
        crashed := false } := by
  have hvg : ∀ l ∈ g0 :: g1 :: gresto, l.valid = true := by
    intro l hl
    exact hval l (mem_matchCamadas (by rw [hm]; exact hl))
  simp only [executarP000]
  match hma : matchCamadas nomes_prioritarios L with
  | amb0 :: amb1 :: ambr => rw [hma] at hp; simp only [List.length] at hp; omega
  | [] =>
    dsimp only
    rw [hm]
    dsimp only
    obtain ⟨kc, hc⟩ := condicionaLista_semFalha g0.crs (g0 :: g1 :: gresto) k hvg
    rw [hc]
    dsimp only
    obtain ⟨ke, he⟩ := listaExclusivas_semFalha
      ((g0 :: g1 :: gresto).map (condPura g0.crs))
      ((g0 :: g1 :: gresto).map (condPura g0.crs)) 0 kc
    simp only [List.map_map, Function.comp_def] at he
    rw [he]
    dsimp only
    rw [mapIdx_some, todasPresentes_map]
    dsimp only
    simp only [semFalha, Bool.false_eq_true, if_false]
    rfl
  | [amb0] =>
    dsimp only
    rw [hm]
    dsimp only
    obtain ⟨kc, hc⟩ := condicionaLista_semFalha g0.crs (g0 :: g1 :: gresto) k hvg
    rw [hc]
    dsimp only
    obtain ⟨ke, he⟩ := listaExclusivas_semFalha
      ((g0 :: g1 :: gresto).map (condPura g0.crs))
      ((g0 :: g1 :: gresto).map (condPura g0.crs)) 0 kc
    simp only [List.map_map, Function.comp_def] at he
    rw [he]
    dsimp only
    rw [mapIdx_some, todasPresentes_map]
    dsimp only
    simp only [semFalha, Bool.false_eq_true, if_false]
    rfl

/-- Conditioning does not change the covered region. -/
theorem condPura_geom (crs : String) (l : Layer) :
    layerGeom (condPura crs l) = layerGeom l := by
  unfold condPura fixgeometries reprojectlayer
  by_cases h : l.crs = crs <;> simp [h, layerGeom]

/-- Conditioning a list does not change the union of regions. -/
theorem uniaoCamadas_condPura (crs : String) (ls : List Layer) :
    uniaoCamadas (ls.map (condPura crs)) = uniaoCamadas ls := by
  induction ls with
  | nil => rfl
  | cons a as ih =>
    show layerGeom (condPura crs a) ∪ uniaoCamadas (as.map (condPura crs)) =
      layerGeom a ∪ uniaoCamadas as
    rw [condPura_geom, ih]

/-- An index-carrying map preserves length. -/
theorem mapIdx_length (f : Nat → Layer → Layer) :
    ∀ (l : List Layer) (i : Nat), (mapIdx f i l).length = l.length := by
  intro l
  induction l with
  | nil => intro i; rfl
  | cons a as ih => intro i; simp only [mapIdx, List.length_cons, ih]

/-- C1: in the unnamed script's generic mode with N matched layers
(2 ≤ N ≤ 4), a fault-free run publishes the single layer "Fora Total",
whose features are the concatenation (feature append, no dissolve) of the
N exclusive regions — the i-th being conditioned layer i with every other
layer subtracted by the sequential difference chain, covering exactly the
region of input layer i outside the union of all the other inputs — and
whose CRS is the first input layer's CRS. -/
theorem c1_fora_total_concatena (L : List Layer) (k : Nat)
    (g0 g1 : Layer) (gresto : List Layer)
    (hval : ∀ l ∈ L, l.valid = true)
    (hp : (matchCamadas nomes_prioritarios L).length < 2)
    (hm : matchCamadas nomes_genericos L = g0 :: g1 :: gresto)
    (hN : (g0 :: g1 :: gresto).length ≤ 4) :
    (executarP000 semFalha L k).1 =
      { published := [adicionar_campo_area
          ((mergeOp (exclusivasPuras ((g0 :: g1 :: gresto).map (condPura g0.crs)))
              g0.crs).setName "Fora Total")],
        crashed := false } ∧
    (mergeOp (exclusivasPuras ((g0 :: g1 :: gresto).map (condPura g0.crs))) g0.crs).feats =
      (exclusivasPuras ((g0 :: g1 :: gresto).map (condPura g0.crs))).flatMap Layer.feats ∧
    (mergeOp (exclusivasPuras ((g0 :: g1 :: gresto).map (condPura g0.crs))) g0.crs).crs
      = g0.crs ∧
    (exclusivasPuras ((g0 :: g1 :: gresto).map (condPura g0.crs))).length =
      (g0 :: g1 :: gresto).length ∧
    ∀ i, i < (g0 :: g1 :: gresto).length →
      layerGeom ((exclusivasPuras
          ((g0 :: g1 :: gresto).map (condPura g0.crs))).getD i camadaVazia) =
        layerGeom ((g0 :: g1 :: gresto).getD i camadaVazia) \
          uniaoCamadas (removeIdx (g0 :: g1 :: gresto) i) := by
  refine ⟨executar_generico_semFalha L k g0 g1 gresto hval hp hm, rfl, rfl, ?_, ?_⟩
  · unfold exclusivasPuras
    rw [mapIdx_length, List.length_map]
  · intro i hi
    have hi' : i < ((g0 :: g1 :: gresto).map (condPura g0.crs)).length := by
      simpa using hi
    rw [exclusivas_getD _ i hi', cadeiaPura_geom,
      removeIdx_map (condPura g0.crs) (g0 :: g1 :: gresto) i, uniaoCamadas_condPura,
      List.getD_eq_getElem _ _ hi', List.getElem_map,
      List.getD_eq_getElem _ _ hi, condPura_geom]

/-- Witness for C1 on three concrete generic layers. -/
theorem c1_fora_total_concatena_witness :
    (executarP000 semFalha
      [mkCamada "Camada01 uso" "EPSG:31982" {0, 1},
       mkCamada "Camada02 uso" "EPSG:31982" {1, 2},
       mkCamada "Camada03 uso" "EPSG:31982" {2, 3}] 0).1 =
      { published := [adicionar_campo_area
          ((mergeOp (exclusivasPuras
              ([mkCamada "Camada01 uso" "EPSG:31982" {0, 1},
                mkCamada "Camada02 uso" "EPSG:31982" {1, 2},
                mkCamada "Camada03 uso" "EPSG:31982" {2, 3}].map
                  (condPura (mkCamada "Camada01 uso" "EPSG:31982" {0, 1}).crs)))
              (mkCamada "Camada01 uso" "EPSG:31982" {0, 1}).crs).setName "Fora Total")],
        crashed := false } ∧
    layerGeom ((exclusivasPuras
        ([mkCamada "Camada01 uso" "EPSG:31982" {0, 1},
          mkCamada "Camada02 uso" "EPSG:31982" {1, 2},
          mkCamada "Camada03 uso" "EPSG:31982" {2, 3}].map
            (condPura (mkCamada "Camada01 uso" "EPSG:31982" {0, 1}).crs))).getD 0 camadaVazia) =
      layerGeom ([mkCamada "Camada01 uso" "EPSG:31982" {0, 1},
          mkCamada "Camada02 uso" "EPSG:31982" {1, 2},
          mkCamada "Camada03 uso" "EPSG:31982" {2, 3}].getD 0 camadaVazia) \
        uniaoCamadas (removeIdx
          [mkCamada "Camada01 uso" "EPSG:31982" {0, 1},
           mkCamada "Camada02 uso" "EPSG:31982" {1, 2},
           mkCamada "Camada03 uso" "EPSG:31982" {2, 3}] 0) :=
  ⟨(c1_fora_total_concatena
      [mkCamada "Camada01 uso" "EPSG:31982" {0, 1},
       mkCamada "Camada02 uso" "EPSG:31982" {1, 2},
       mkCamada "Camada03 uso" "EPSG:31982" {2, 3}] 0
      (mkCamada "Camada01 uso" "EPSG:31982" {0, 1})
      (mkCamada "Camada02 uso" "EPSG:31982" {1, 2})
      [mkCamada "Camada03 uso" "EPSG:31982" {2, 3}]
      (by decide) (by decide) (by decide) (by decide)).1,
   (c1_fora_total_concatena
      [mkCamada "Camada01 uso" "EPSG:31982" {0, 1},
       mkCamada "Camada02 uso" "EPSG:31982" {1, 2},
       mkCamada "Camada03 uso" "EPSG:31982" {2, 3}] 0
      (mkCamada "Camada01 uso" "EPSG:31982" {0, 1})
      (mkCamada "Camada02 uso" "EPSG:31982" {1, 2})
      [mkCamada "Camada03 uso" "EPSG:31982" {2, 3}]
      (by decide) (by decide) (by decide) (by decide)).2.2.2.2 0 (by decide)⟩
